import Mathlib

/-!
Verification of the page-insight-tool fetch-parse-probe pipeline.

This file shallowly embeds the Go backend of the repository:
the SSRF dial-time address classifier, the streaming HTML extractor,
the link-accessibility prober, the engine's link-collection loop, and
the analyzer service's error reclassification.  Machine integers are
modelled as Nat, fallible Go functions as Option/Except, and the
worker-pool aggregation as its order-insensitive denotation.
-/

namespace PageInsight

/-!
## Model of net/netip addresses (safe dialer, unnamed scanner support file)

An address is either IPv4 (a 32-bit value as Nat) or IPv6 (a 128-bit
value as Nat).  The helper predicates mirror the methods of Go's
net/netip.Addr that isBlockedIP relies on; they are applied after
Unmap, hence each handles plain (non-4-in-6) addresses of its family.
-/

inductive NetAddr where
  | v4 (n : Nat)
  | v6 (n : Nat)
deriving DecidableEq

/-- Models netip.Addr.Unmap: an IPv4-mapped IPv6 address
(bits 127..48 zero, bits 47..32 all ones) becomes the embedded IPv4
address; every other address is unchanged. -/
def NetAddr.unmap : NetAddr → NetAddr
  | .v4 n => .v4 n
  | .v6 n => if n >>> 32 == 0xFFFF then .v4 (n % 2 ^ 32) else .v6 n

/-- Models netip.Addr.IsLoopback: 127.0.0.0/8 for IPv4, ::1 for IPv6. -/
def NetAddr.isLoopback : NetAddr → Bool
  | .v4 n => n >>> 24 == 127
  | .v6 n => n == 1

/-- Models netip.Addr.IsMulticast: 224.0.0.0/4 for IPv4, ff00::/8 for IPv6. -/
def NetAddr.isMulticast : NetAddr → Bool
  | .v4 n => n >>> 28 == 0xE
  | .v6 n => n >>> 120 == 0xFF

/-- Models netip.Addr.IsLinkLocalUnicast: 169.254.0.0/16 for IPv4,
fe80::/10 for IPv6. -/
def NetAddr.isLinkLocalUnicast : NetAddr → Bool
  | .v4 n => n >>> 16 == 169 * 256 + 254
  | .v6 n => n >>> 118 == 0x3FA

/-- Models netip.Addr.IsUnspecified: 0.0.0.0 or ::. -/
def NetAddr.isUnspecified : NetAddr → Bool
  | .v4 n => n == 0
  | .v6 n => n == 0

/-- Models netip.Addr.IsGlobalUnicast: false for the IPv4 unspecified and
broadcast addresses, the IPv6 unspecified address, loopback, multicast,
and link-local unicast; true otherwise. -/
def NetAddr.isGlobalUnicast (a : NetAddr) : Bool :=
  match a with
  | .v4 n =>
    !(n == 0 || n == 0xFFFFFFFF) && !a.isLoopback && !a.isMulticast &&
      !a.isLinkLocalUnicast
  | .v6 _ =>
    !a.isUnspecified && !a.isLoopback && !a.isMulticast &&
      !a.isLinkLocalUnicast

/-- Models netip.Addr.IsPrivate: 10.0.0.0/8, 172.16.0.0/12, 192.168.0.0/16
for IPv4; fc00::/7 for IPv6. -/
def NetAddr.isPrivate : NetAddr → Bool
  | .v4 n =>
    n >>> 24 == 10 ||
      (n >>> 24 == 172 && ((n >>> 16) % 256) &&& 0xF0 == 16) ||
      n >>> 16 == 192 * 256 + 168
  | .v6 n => (n >>> 120) &&& 0xFE == 0xFC

/-- An IPv4 CIDR range: base address (as a 32-bit Nat) and mask length. -/
structure V4Range where
  base : Nat
  bits : Nat
deriving DecidableEq

/-- Models netip.Prefix.Contains for the IPv4 prefixes of the dialer:
masked compare for an IPv4 address, false for a different family. -/
def V4Range.containsAddr (p : V4Range) : NetAddr → Bool
  | .v4 n => n >>> (32 - p.bits) == p.base >>> (32 - p.bits)
  | .v6 _ => false

/-- The reservedPrefixes list of the safe dialer: carrier-grade NAT
(100.64.0.0/10), IETF protocol assignments (192.0.0.0/24), TEST-NET-1
(192.0.2.0/24), benchmarking (198.18.0.0/15), TEST-NET-2
(198.51.100.0/24), TEST-NET-3 (203.0.113.0/24). -/
def reservedPrefixes : List V4Range :=
  [⟨0x64400000, 10⟩, ⟨0xC0000000, 24⟩, ⟨0xC0000200, 24⟩,
   ⟨0xC6120000, 15⟩, ⟨0xC6336400, 24⟩, ⟨0xCB007100, 24⟩]

/-- Embeds isBlockedIP: unmap the address, then block it when it is not
global unicast or is private, or lies in one of the reserved prefixes. -/
def isBlockedIP (addr : NetAddr) : Bool :=
  let a := addr.unmap
  if !a.isGlobalUnicast || a.isPrivate then true
  else reservedPrefixes.any (fun p => p.containsAddr a)

/-- The claim's independent description of one reserved range: the
unmapped address is IPv4 and lies (as a number) in [lo, hi). -/
def inV4Range (a : NetAddr) (lo hi : Nat) : Prop :=
  ∃ n, a = NetAddr.v4 n ∧ lo ≤ n ∧ n < hi

/-- The claim's description of a blocked address: after unmapping, not
global-unicast, or private, or inside one of the listed reserved ranges,
the ranges spelled out as explicit numeric intervals. -/
def blockedPerClaim (addr : NetAddr) : Prop :=
  NetAddr.isGlobalUnicast addr.unmap = false ∨
  NetAddr.isPrivate addr.unmap = true ∨
  inV4Range addr.unmap 0x64400000 0x64800000 ∨
  inV4Range addr.unmap 0xC0000000 0xC0000100 ∨
  inV4Range addr.unmap 0xC0000200 0xC0000300 ∨
  inV4Range addr.unmap 0xC6120000 0xC6140000 ∨
  inV4Range addr.unmap 0xC6336400 0xC6336500 ∨
  inV4Range addr.unmap 0xCB007100 0xCB007200

/-!
## Model of the link prober (unnamed scanner file: checkLink, getProbe,
CheckLinksWithWorkerPool)

An HTTP exchange is modelled by a function from URL and method to a
transport result: either a response (status plus Location header) or a
transport error.  The ambient context is a Bool flag, true when the
context's error is non-nil (cancelled or past its deadline).  Every
modelled request call also returns the list of (url, method) requests it
issued, so that statements about which URLs get contacted are
expressible.
-/

inductive Method where
  | head
  | get
deriving DecidableEq

structure HResp where
  status : Nat
  location : String
deriving DecidableEq

inductive TransportResult where
  | resp (r : HResp)
  | err
deriving DecidableEq

structure Web where
  fetch : String → Method → TransportResult

def isRedirectStatus (s : Nat) : Bool :=
  s == 301 || s == 302 || s == 303 || s == 307 || s == 308

/-- Models http.Client.Do with redirect handling: on a redirect response
with a Location, the client issues a follow-up request unless the
CheckRedirect policy returns ErrUseLastResponse (useLast), in which case
the current response is returned as-is.  fuel bounds the redirect chain
(Go stops after 10). -/
def clientDoFuel (w : Web) (useLast : Bool) :
    Nat → Method → String → TransportResult × List (String × Method)
  | 0, _, _ => (.err, [])
  | fuel + 1, m, u =>
    match w.fetch u m with
    | .err => (.err, [(u, m)])
    | .resp r =>
      if isRedirectStatus r.status && r.location != "" && !useLast then
        let rest := clientDoFuel w useLast fuel m r.location
        (rest.1, (u, m) :: rest.2)
      else (.resp r, [(u, m)])

/-- The LinkChecker's client: newLinkChecker installs a CheckRedirect
that always returns http.ErrUseLastResponse, so useLast is true. -/
def linkClientDo (w : Web) (m : Method) (u : String) :
    TransportResult × List (String × Method) :=
  clientDoFuel w true 10 m u

/-- Models LinkChecker.getProbe: a minimal-body GET (first-byte Range)
used as fallback when HEAD is rejected.  newRequestOk models whether
http.NewRequestWithContext succeeds for the link.  Returns the
inaccessible verdict and the requests issued. -/
def getProbe (newRequestOk : String → Bool) (ctxCancelled : Bool)
    (w : Web) (link : String) : Bool × List (String × Method) :=
  if !newRequestOk link then (true, [])
  else
    match linkClientDo w .get link with
    | (.err, reqs) => (!ctxCancelled, reqs)
    | (.resp r, reqs) => (decide (r.status ≥ 400), reqs)

/-- Models LinkChecker.checkLink: HEAD first; a malformed URL is
inaccessible; a transport failure is inaccessible only if the context's
error is nil; a 403 or 405 response triggers the GET fallback; otherwise
the verdict is status ≥ 400. -/
def checkLink (newRequestOk : String → Bool) (ctxCancelled : Bool)
    (w : Web) (link : String) : Bool × List (String × Method) :=
  if !newRequestOk link then (true, [])
  else
    match linkClientDo w .head link with
    | (.err, reqs) => (!ctxCancelled, reqs)
    | (.resp r, reqs) =>
      if r.status == 403 || r.status == 405 then
        let g := getProbe newRequestOk ctxCancelled w link
        (g.1, reqs ++ g.2)
      else (decide (r.status ≥ 400), reqs)

def maxLinks : Nat := 1000

/-- Models the cap in CheckLinksWithWorkerPool: limit := min(len, 1000);
links = links[:limit].  Only these entries are sent to the jobs channel. -/
def dispatchedLinks (links : List String) : List String :=
  links.take (min links.length maxLinks)

/-- Models CheckLinksWithWorkerPool's aggregate: each dispatched link
yields exactly one verdict on the results channel, and the single
collector counts the true ones; the count is order-insensitive, so the
pool's denotation is the count of inaccessible verdicts among the
dispatched links (verdict abstracts checkLink's per-link result). -/
def checkLinksWithWorkerPool (verdict : String → Bool)
    (links : List String) : Nat :=
  (dispatchedLinks links).countP verdict

def elevenHundredLinks : List String :=
  (List.range 1100).map (fun i => "https://example.com/p" ++ toString i)

def demoWeb403 : Web :=
  ⟨fun _ m => match m with
    | .head => .resp ⟨403, ""⟩
    | .get => .resp ⟨200, ""⟩⟩

def demoWeb200 : Web := ⟨fun _ _ => .resp ⟨200, ""⟩⟩

def demoWebDown : Web := ⟨fun _ _ => .err⟩

def demoWebRedirect : Web :=
  ⟨fun u m => match u, m with
    | "https://example.com/a", .head => .resp ⟨302, "https://evil.example.net/t"⟩
    | _, _ => .resp ⟨200, ""⟩⟩

/-!
## Model of the error taxonomy and the analyzer service

service.go wraps provider errors; its deadline branch fires when
errors.Is(ctx.Err(), context.DeadlineExceeded), i.e. exactly when the
ambient context's error is the deadline-exceeded sentinel.
-/

/-- Modelled from the spec: the errs.Kind taxonomy with its five kinds
{InvalidInput, Unreachable, Timeout, ParsingFailed, Unknown}.  The
errs.go snapshot in the tree predates the Timeout kind and the
UpstreamStatus field, but service.go, engine.go, engine_test.go and
http_transport.go all reference errs.Timeout and UpstreamStatus, so the
current errs.go (missing from the tree) is modelled from the spec's
taxonomy. -/
inductive Kind where
  | unknown
  | invalidInput
  | unreachable
  | timeout
  | parsingFailed
deriving DecidableEq

/-- Models Go errors as seen by the service: an errs.AppError (kind,
upstream status, message, optional wrapped cause) or any other error,
identified by its message. -/
inductive GoError where
  | app (kind : Kind) (upstreamStatus : Nat) (message : String)
      (cause : Option GoError)
  | basic (msg : String)

def GoError.kindOf : GoError → Option Kind
  | .app k _ _ _ => some k
  | .basic _ => none

def GoError.causeOf : GoError → Option GoError
  | .app _ _ _ c => c
  | .basic _ => none

/-- Models context.Context.Err(): nil (none), Canceled, or
DeadlineExceeded. -/
inductive CtxErr where
  | canceled
  | deadlineExceeded
deriving DecidableEq

structure LinkStats where
  internal : Nat
  external : Nat
  inaccessible : Nat
deriving DecidableEq

structure Headings where
  h1 : Nat
  h2 : Nat
  h3 : Nat
  h4 : Nat
  h5 : Nat
  h6 : Nat
deriving DecidableEq

/-- Models model.PageAnalysis. -/
structure PageAnalysis where
  url : String
  htmlVersion : String
  title : String
  headings : Headings
  links : LinkStats
  hasLoginForm : Bool
deriving DecidableEq

def timeoutMessage : String :=
  "Analysis timed out. The target URL may be slow to respond."

/-- Models Service.Analyze (service.go): delegate to the provider; on
error, if the ambient context's error is DeadlineExceeded, wrap the
error as an AppError of kind Timeout with the original error as cause;
otherwise return the error unchanged. -/
def serviceAnalyze (ctxErr : Option CtxErr)
    (providerResult : Except GoError PageAnalysis) :
    Except GoError PageAnalysis :=
  match providerResult with
  | .ok r => .ok r
  | .error e =>
    if ctxErr == some .deadlineExceeded then
      .error (.app .timeout 0 timeoutMessage (some e))
    else .error e

/-!
## String helpers modelling the Go standard library

Only the behaviour the parser relies on is modelled: substring search
(strings.Contains), lower-casing (strings.ToLower — the inputs here are
ASCII), case-insensitive equality (strings.EqualFold), and
strings.Cut-style splitting.
-/

/-- Models strings.ToLower for the ASCII strings that occur here
(doctype data, schemes, host names); structural so that the kernel can
evaluate it. -/
def strToLower (s : String) : String :=
  String.mk (s.toList.map Char.toLower)

/-- Models strings.TrimSpace for the text tokens that occur here:
leading and trailing whitespace removed. -/
def strTrim (s : String) : String :=
  String.mk
    (((s.toList.dropWhile Char.isWhitespace).reverse.dropWhile
        Char.isWhitespace).reverse)

/-- Models strings.Contains: sub occurs somewhere in s. -/
def strContains (s sub : String) : Bool :=
  s.toList.tails.any (fun t => sub.toList.isPrefixOf t)

/-- Models strings.EqualFold for the ASCII strings that occur here
(host names, attribute values). -/
def equalFold (a b : String) : Bool :=
  strToLower a == strToLower b

/-- Models strings.Cut at a single character: text before the first
occurrence, and the text after it (none when the character is absent). -/
def cutChar : List Char → Char → List Char × Option (List Char)
  | [], _ => ([], none)
  | x :: xs, c =>
    if x = c then ([], some xs)
    else
      let r := cutChar xs c
      (x :: r.1, r.2)

/-- Models net/url's split with cutc=false: text before the first
occurrence, and the rest including the separator itself. -/
def cutKeepChar : List Char → Char → List Char × List Char
  | [], _ => ([], [])
  | x :: xs, c =>
    if x = c then ([], x :: xs)
    else
      let r := cutKeepChar xs c
      (x :: r.1, r.2)

def startsWithSlash : List Char → Bool
  | '/' :: _ => true
  | _ => false

def startsWith2Slash : List Char → Bool
  | '/' :: '/' :: _ => true
  | _ => false

def startsWith3Slash : List Char → Bool
  | '/' :: '/' :: '/' :: _ => true
  | _ => false

/-!
## Model of net/url for the URL forms reaching the extractor

A GoURL mirrors url.URL restricted to the fields the extractor's logic
reads: Scheme, Opaque (spelled opq), Host, Path, RawQuery, Fragment.
Percent-escaping and userinfo are not modelled — neither plays a role
in scheme filtering or host comparison.
-/

structure GoURL where
  scheme : String
  opq : String
  host : String
  path : String
  rawQuery : String
  fragment : String
deriving DecidableEq

/-- Models net/url's getScheme: scans for a scheme prefix terminated by
a colon; returns (scheme, rest), with scheme "" when the string has no
scheme; none on the "missing protocol scheme" error (colon first). -/
def goGetScheme (orig : List Char) : List Char → List Char → Bool →
    Option (List Char × List Char)
  | _, [], _ => some ([], orig)
  | acc, c :: rest, first =>
    if ('a' ≤ c ∧ c ≤ 'z') ∨ ('A' ≤ c ∧ c ≤ 'Z') then
      goGetScheme orig (acc ++ [c]) rest false
    else if ('0' ≤ c ∧ c ≤ '9') ∨ c = '+' ∨ c = '-' ∨ c = '.' then
      if first then some ([], orig)
      else goGetScheme orig (acc ++ [c]) rest false
    else if c = ':' then
      if first then none else some (acc, rest)
    else some ([], orig)

/-- Models url.Parse for the href shapes the extractor sees: fragment
and query are cut off, the scheme extracted and lower-cased, then the
authority, opaque (rootless path after a scheme) and path cases are
distinguished exactly as in net/url's parse with viaRequest=false. -/
def urlParse (rawURL : String) : Option GoURL :=
  let cut1 := cutChar rawURL.toList '#'
  let frag := match cut1.2 with
    | none => ""
    | some f => String.mk f
  match goGetScheme cut1.1 [] cut1.1 true with
  | none => none
  | some (scheme0, rest0) =>
    let scheme := strToLower (String.mk scheme0)
    let cut2 := cutChar rest0 '?'
    let rest1 := cut2.1
    let query := match cut2.2 with
      | none => ""
      | some q => String.mk q
    if startsWithSlash rest1 = false ∧ scheme ≠ "" then
      some ⟨scheme, String.mk rest1, "", "", query, frag⟩
    else if startsWithSlash rest1 = false ∧
        ((cutChar rest1 '/').1.any (fun c => c == ':')) = true then
      none
    else if startsWith2Slash rest1 = true ∧
        (scheme ≠ "" ∨ startsWith3Slash rest1 = false) then
      let ar := cutKeepChar (rest1.drop 2) '/'
      some ⟨scheme, "", String.mk ar.1, String.mk ar.2, query, frag⟩
    else
      some ⟨scheme, "", "", String.mk rest1, query, frag⟩

/-- Index of the last slash in s (strings.LastIndex(s, "/")), none when
absent. -/
def lastIndexSlash (s : String) : Option Nat :=
  match s.toList.reverse.findIdx? (fun c => c = '/') with
  | none => none
  | some j => some (s.toList.length - 1 - j)

/-- base[:i+1] where i is the last index of '/' in base ("" when there
is no slash). -/
def upToLastSlash (base : String) : String :=
  match lastIndexSlash base with
  | none => ""
  | some i => String.mk (base.toList.take (i + 1))

/-- Splitting at '/' (the strings.Cut loop of resolvePath): "a/b" gives
["a", "b"], "" gives [""], "/a" gives ["", "a"]. -/
def splitOnSlash : List Char → List (List Char)
  | [] => [[]]
  | x :: xs =>
    let r := splitOnSlash xs
    if x = '/' then [] :: r
    else
      match r with
      | [] => [[x]]
      | h :: t2 => (x :: h) :: t2

/-- The segment loop of net/url's resolvePath: dst starts as "/",
"." drops the segment, ".." pops the last written segment, and other
segments are appended with a slash separator except for the first. -/
def resolveSegsLoop (dst : String) (first : Bool) : List String → String
  | [] => dst
  | e :: rest =>
    if e = "." then resolveSegsLoop dst false rest
    else if e = ".." then
      let str := String.mk (dst.toList.drop 1)
      match lastIndexSlash str with
      | none => resolveSegsLoop "/" true rest
      | some i => resolveSegsLoop ("/" ++ String.mk (str.toList.take i)) first rest
    else
      resolveSegsLoop (if first then dst ++ e else dst ++ "/" ++ e) false rest

/-- Models net/url's resolvePath: merge ref into base's directory, then
remove dot segments; a trailing "." or ".." keeps a trailing slash, and
a doubled leading slash is collapsed. -/
def resolvePath (base ref : String) : String :=
  let full :=
    if ref = "" then base
    else if startsWithSlash ref.toList = false then upToLastSlash base ++ ref
    else ref
  if full = "" then ""
  else
    let elems := (splitOnSlash full.toList).map String.mk
    let dst0 := resolveSegsLoop "/" true elems
    let last := elems.getLastD ""
    let dst1 := if last = "." ∨ last = ".." then dst0 ++ "/" else dst0
    match dst1.toList with
    | c0 :: c1 :: rest2 =>
      if c1 = '/' then String.mk (c1 :: rest2) else String.mk (c0 :: c1 :: rest2)
    | _ => dst1

/-- Models url.URL.ResolveReference for the modelled fields: an absolute
reference (scheme or host present) keeps its own authority; an opaque
reference keeps its opaque part; otherwise the base's host is kept, the
query and fragment are inherited when the reference is empty, and paths
merge through resolvePath. -/
def resolveReference (u ref : GoURL) : GoURL :=
  let url0 := ref
  let url1 := if ref.scheme = "" then {url0 with scheme := u.scheme} else url0
  if ref.scheme ≠ "" ∨ ref.host ≠ "" then
    {url1 with path := resolvePath ref.path ""}
  else if ref.opq ≠ "" then
    {url1 with host := "", path := ""}
  else
    let url2 :=
      if ref.path = "" ∧ ref.rawQuery = "" then
        let u2 := {url1 with rawQuery := u.rawQuery}
        if ref.fragment = "" then {u2 with fragment := u.fragment} else u2
      else url1
    {url2 with host := u.host, path := resolvePath u.path ref.path}

/-- Models url.URL.String for the modelled fields. -/
def GoURL.toStr (u : GoURL) : String :=
  (if u.scheme ≠ "" then u.scheme ++ ":" else "") ++
  (if u.opq ≠ "" then u.opq
   else
     (if u.scheme ≠ "" ∨ u.host ≠ "" then
        (if u.host ≠ "" ∨ u.path ≠ "" then "//" else "") ++ u.host
      else "") ++ u.path) ++
  (if u.rawQuery ≠ "" then "?" ++ u.rawQuery else "") ++
  (if u.fragment ≠ "" then "#" ++ u.fragment else "")

/-!
## Model of the streaming HTML extractor (unnamed parser file)

Tokens mirror golang.org/x/net/html's tokenizer output as the parser
consumes it: the tag name, the attribute list (empty iff hasAttr is
false), text and doctype data.  A token list ending normally models the
clean-EOF success path of Parse.
-/

structure Link where
  url : String
  isInternal : Bool
deriving DecidableEq

/-- Embeds classifyLink: parse the href, resolve it against the base
URL, drop non-http(s) schemes, classify by case-insensitive host
equality. -/
def classifyLink (href : String) (baseURL : GoURL) : Option Link :=
  match urlParse href with
  | none => none
  | some parsed =>
    let resolved := resolveReference baseURL parsed
    if resolved.scheme ≠ "http" ∧ resolved.scheme ≠ "https" then none
    else some ⟨resolved.toStr, equalFold resolved.host baseURL.host⟩

/-- Embeds detectHTMLVersion: lower-case the doctype data; no "public"
substring means HTML5; otherwise the first match in priority order
decides, defaulting to "Unknown". -/
def detectHTMLVersion (data : String) : String :=
  let d := strToLower data
  if strContains d "public" = false then "HTML5"
  else if strContains d "xhtml 1.1" = true ∨ strContains d "xhtml basic 1.1" = true then
    "XHTML 1.1"
  else if strContains d "xhtml 1.0" = true then "XHTML 1.0"
  else if strContains d "html 4.01" = true then "HTML 4.01"
  else "Unknown"

inductive HTok where
  | doctype (data : String)
  | startTag (name : String) (attrs : List (String × String))
  | selfClosing (name : String) (attrs : List (String × String))
  | text (s : String)
  | endTag (name : String)
deriving DecidableEq

/-- Embeds isHeading. -/
def isHeading (tag : String) : Bool :=
  tag == "h1" || tag == "h2" || tag == "h3" ||
  tag == "h4" || tag == "h5" || tag == "h6"

/-- Embeds extractAttr: the value of the first attribute whose key
matches, "" when none does. -/
def extractAttr : List (String × String) → String → String
  | [], _ => ""
  | (k, v) :: rest, target =>
    if k = target then v else extractAttr rest target

def Headings.incr (h : Headings) (tag : String) : Headings :=
  if tag = "h1" then {h with h1 := h.h1 + 1}
  else if tag = "h2" then {h with h2 := h.h2 + 1}
  else if tag = "h3" then {h with h3 := h.h3 + 1}
  else if tag = "h4" then {h with h4 := h.h4 + 1}
  else if tag = "h5" then {h with h5 := h.h5 + 1}
  else if tag = "h6" then {h with h6 := h.h6 + 1}
  else h

/-- The extractor's state: the ParseResult fields plus the inTitle
flag threaded through the token loop. -/
structure PState where
  htmlVersion : String
  title : String
  headings : Headings
  links : List Link
  hasLoginForm : Bool
  inTitle : Bool
deriving DecidableEq

def initPState : PState :=
  ⟨"Unknown", "", ⟨0, 0, 0, 0, 0, 0⟩, [], false, false⟩

/-- The start-tag / self-closing-tag switch of Parse. -/
def stepStart (base : GoURL) (st : PState) (tag : String)
    (attrs : List (String × String)) : PState :=
  if tag = "title" then {st with inTitle := true}
  else if isHeading tag = true then {st with headings := st.headings.incr tag}
  else if tag = "a" ∧ attrs ≠ [] then
    let href := extractAttr attrs "href"
    if href ≠ "" then
      match classifyLink href base with
      | some link => {st with links := st.links ++ [link]}
      | none => st
    else st
  else if tag = "input" ∧ attrs ≠ [] then
    if equalFold (extractAttr attrs "type") "password" = true then
      {st with hasLoginForm := true}
    else st
  else st

/-- One step of Parse's token loop. -/
def pstep (base : GoURL) (st : PState) : HTok → PState
  | .doctype data => {st with htmlVersion := detectHTMLVersion data}
  | .startTag tag attrs => stepStart base st tag attrs
  | .selfClosing tag attrs => stepStart base st tag attrs
  | .text s =>
    if st.inTitle then {st with title := strTrim s, inTitle := false} else st
  | .endTag tag => if tag = "title" then {st with inTitle := false} else st

/-- Embeds Parse on a token stream ending in clean EOF. -/
def parseTokens (base : GoURL) (ts : List HTok) : PState :=
  ts.foldl (pstep base) initPState

/-- The link an anchor token contributes, mirroring stepStart's
branches. -/
def startTagLink (base : GoURL) (tag : String)
    (attrs : List (String × String)) : Option Link :=
  if tag = "title" then none
  else if isHeading tag = true then none
  else if tag = "a" ∧ attrs ≠ [] then
    (if extractAttr attrs "href" ≠ "" then
       classifyLink (extractAttr attrs "href") base
     else none)
  else none

def tokenLink (base : GoURL) : HTok → Option Link
  | .startTag tag attrs => startTagLink base tag attrs
  | .selfClosing tag attrs => startTagLink base tag attrs
  | _ => none

/-!
## Model of the engine's link collection (engine.go)

Engine.Analyze walks parseResult.Links once, appending every URL to the
checker's input slice and bumping the internal or external counter per
occurrence.
-/

/-- Embeds the collection loop of Engine.Analyze: returns (linkURLs,
internalCount, externalCount). -/
def collectLinks (links : List Link) : List String × Nat × Nat :=
  links.foldl
    (fun acc l =>
      (acc.1 ++ [l.url],
       if l.isInternal then acc.2.1 + 1 else acc.2.1,
       if l.isInternal then acc.2.2 else acc.2.2 + 1))
    ([], 0, 0)

/-- Modelled from the spec: the LinkSet — the deduplicated (by exact
URL string), order-preserving set of the collected URLs.  engine.go
contains no such step; this definition states what the spec and the
repository's own dedup test expect. -/
def dedupPreservingOrder (xs : List String) : List String :=
  xs.foldl (fun acc x => if x ∈ acc then acc else acc ++ [x]) []

def exBase : GoURL := ⟨"https", "", "example.com", "", "", ""⟩

/-- The link sequence of TestEngine_Analyze_DeduplicatesLinks's document:
five anchors, two of them repeated. -/
def dedupTestTokens : List HTok :=
  [.doctype "html",
   .startTag "html" [], .startTag "head" [],
   .startTag "title" [], .text "Dedup", .endTag "title",
   .endTag "head", .startTag "body" [],
   .startTag "a" [("href", "https://example.com/a")], .text "A", .endTag "a",
   .startTag "a" [("href", "https://other.com/b")], .text "B", .endTag "a",
   .startTag "a" [("href", "https://example.com/a")], .text "A again", .endTag "a",
   .startTag "a" [("href", "https://other.com/b")], .text "B again", .endTag "a",
   .startTag "a" [("href", "https://example.com/c")], .text "C", .endTag "a",
   .endTag "body", .endTag "html"]

def twoTitleToks : List HTok :=
  [.startTag "title" [], .text "First", .endTag "title",
   .startTag "title" [], .text "Second", .endTag "title"]

def aboutParsed : GoURL := ⟨"", "", "", "/about", "", ""⟩

def mailtoParsed : GoURL := ⟨"mailto", "test@example.com", "", "", "", ""⟩

theorem reserved_any_iff_ranges (a : NetAddr) :
    reservedPrefixes.any (fun p => p.containsAddr a) = true ↔
      (inV4Range a 0x64400000 0x64800000 ∨
       inV4Range a 0xC0000000 0xC0000100 ∨
       inV4Range a 0xC0000200 0xC0000300 ∨
       inV4Range a 0xC6120000 0xC6140000 ∨
       inV4Range a 0xC6336400 0xC6336500 ∨
       inV4Range a 0xCB007100 0xCB007200) := by
  cases a with
  | v4 n =>
    simp only [reservedPrefixes, List.any_cons, List.any_nil,
      V4Range.containsAddr, inV4Range, NetAddr.v4.injEq, Bool.or_eq_true,
      beq_iff_eq, exists_eq_left', Nat.shiftRight_eq_div_pow]
    norm_num
    omega
  | v6 n =>
    simp [reservedPrefixes, V4Range.containsAddr, inV4Range]

/-- Claim C5: the dial-time address classifier blocks exactly the
non-public addresses: 127.0.0.1, 10.0.0.1, 169.254.169.254, ::1 and
::ffff:127.0.0.1 are blocked, 8.8.8.8 is not; in general an address is
blocked iff, after unmapping, it is not global-unicast, or is private,
or lies in one of the listed reserved ranges. -/
theorem isBlockedIP_blocks_exactly_nonpublic :
    isBlockedIP (.v4 0x7F000001) = true ∧
    isBlockedIP (.v4 0x0A000001) = true ∧
    isBlockedIP (.v4 0xA9FEA9FE) = true ∧
    isBlockedIP (.v6 1) = true ∧
    isBlockedIP (.v6 0xFFFF7F000001) = true ∧
    isBlockedIP (.v4 0x08080808) = false ∧
    ∀ addr, isBlockedIP addr = true ↔ blockedPerClaim addr := by
  refine ⟨by decide, by decide, by decide, by decide, by decide, by decide, ?_⟩
  intro addr
  unfold isBlockedIP blockedPerClaim
  by_cases hg : NetAddr.isGlobalUnicast addr.unmap = true
  · by_cases hp : NetAddr.isPrivate addr.unmap = true
    · simp [hg, hp]
    · simp only [hg, Bool.not_true, Bool.false_or,
        Bool.eq_false_iff.mpr hp, if_false, Bool.false_eq_true, if_neg]
      rw [reserved_any_iff_ranges]
      simp [Bool.eq_false_iff.mpr hp, hg]
  · simp [Bool.eq_false_iff.mpr hg]

/-- Claim C8: the prober dispatches at most the first 1000 entries (with
1100 candidates exactly the first 1000), and the inaccessible count is
at most min(length, 1000); an empty input yields 0. -/
theorem checkLinks_cap_1000 :
    (∀ links : List String, dispatchedLinks links = links.take 1000) ∧
    (∀ links : List String,
       (dispatchedLinks links).length = min links.length 1000) ∧
    (∀ verdict links,
       checkLinksWithWorkerPool verdict links ≤ min links.length 1000) ∧
    (∀ verdict, checkLinksWithWorkerPool verdict [] = 0) ∧
    dispatchedLinks elevenHundredLinks = elevenHundredLinks.take 1000 ∧
    (dispatchedLinks elevenHundredLinks).length = 1000 := by
  have hdisp : ∀ links : List String,
      dispatchedLinks links = links.take 1000 := by
    intro links
    unfold dispatchedLinks maxLinks
    rcases Nat.le_total links.length 1000 with h | h
    · rw [min_eq_left h, List.take_of_length_le (le_refl _),
        List.take_of_length_le h]
    · rw [min_eq_right h]
  have hlen : ∀ links : List String,
      (dispatchedLinks links).length = min links.length 1000 := by
    intro links
    rw [hdisp, List.length_take, min_comm]
  refine ⟨hdisp, hlen, ?_, ?_, hdisp _, ?_⟩
  · intro verdict links
    calc checkLinksWithWorkerPool verdict links
        ≤ (dispatchedLinks links).length := List.countP_le_length _
      _ = min links.length 1000 := hlen links
  · intro verdict
    rfl
  · rw [hlen, show elevenHundredLinks.length = 1100 by
      simp [elevenHundredLinks]]
    decide

/-- Claim C2: a HEAD response of 403 or 405 triggers exactly one GET
retry, whose status decides the verdict (accessible iff < 400); any
other HEAD response status decides the verdict directly (inaccessible
iff ≥ 400) with no retry. -/
theorem checkLink_head_403_405_get_fallback
    (nro : String → Bool) (cc : Bool) (w : Web) (link : String) (r : HResp)
    (hok : nro link = true) (hhead : w.fetch link .head = .resp r) :
    ((r.status = 403 ∨ r.status = 405) →
      (∀ g : HResp, w.fetch link .get = .resp g →
        checkLink nro cc w link =
          (decide (g.status ≥ 400), [(link, .head), (link, .get)]))) ∧
    ((r.status ≠ 403 ∧ r.status ≠ 405) →
      checkLink nro cc w link = (decide (r.status ≥ 400), [(link, .head)])) := by
  constructor
  · intro hs g hget
    unfold checkLink getProbe linkClientDo clientDoFuel
    rw [hhead, hget]
    have hr : ¬ (isRedirectStatus r.status && r.location != "" && !true) = true := by
      simp
    have hg : ¬ (isRedirectStatus g.status && g.location != "" && !true) = true := by
      simp
    simp only [hok, Bool.not_true, if_neg, hr, hg, if_false]
    rcases hs with hs | hs <;> simp [hs]
  · intro hs
    unfold checkLink linkClientDo clientDoFuel
    rw [hhead]
    have hr : ¬ (isRedirectStatus r.status && r.location != "" && !true) = true := by
      simp
    simp only [hok, Bool.not_true, if_neg, hr, if_false]
    have : ¬ (r.status == 403 || r.status == 405) = true := by
      simp only [Bool.or_eq_true, beq_iff_eq]
      tauto
    simp [this]

theorem checkLink_head_403_405_get_fallback_witness :
    ((403 = 403 ∨ 403 = 405) ∧
      checkLink (fun _ => true) false demoWeb403 "https://example.com/a" =
        (false, [("https://example.com/a", .head), ("https://example.com/a", .get)])) ∧
    ((200 ≠ 403 ∧ 200 ≠ 405) ∧
      checkLink (fun _ => true) false demoWeb200 "https://example.com/a" =
        (false, [("https://example.com/a", .head)])) := by
  constructor
  · refine ⟨Or.inl rfl, ?_⟩
    have h := (checkLink_head_403_405_get_fallback (fun _ => true) false
      demoWeb403 "https://example.com/a" ⟨403, ""⟩ rfl rfl).1
      (Or.inl rfl) ⟨200, ""⟩ rfl
    rw [h]
    decide
  · refine ⟨⟨by decide, by decide⟩, ?_⟩
    have h := (checkLink_head_403_405_get_fallback (fun _ => true) false
      demoWeb200 "https://example.com/a" ⟨200, ""⟩ rfl rfl).2
      ⟨by decide, by decide⟩
    rw [h]
    decide

/-- Claim C4: with the ambient context already cancelled, a transport
failure of the HEAD request, or of the GET fallback after a 403/405
HEAD response, yields verdict false (not inaccessible); in general a
request failure counts as inaccessible exactly when the context's error
is nil. -/
theorem checkLink_cancelled_not_inaccessible
    (nro : String → Bool) (w : Web) (link : String)
    (hok : nro link = true) :
    (w.fetch link .head = .err →
      (checkLink nro true w link).1 = false ∧
      ∀ cc, (checkLink nro cc w link).1 = !cc) ∧
    (∀ r : HResp, w.fetch link .head = .resp r →
      (r.status = 403 ∨ r.status = 405) →
      w.fetch link .get = .err →
      (checkLink nro true w link).1 = false ∧
      ∀ cc, (checkLink nro cc w link).1 = !cc) := by
  constructor
  · intro hhead
    have hgen : ∀ cc, (checkLink nro cc w link).1 = !cc := by
      intro cc
      unfold checkLink linkClientDo clientDoFuel
      rw [hhead]
      simp [hok]
    exact ⟨hgen true, hgen⟩
  · intro r hhead hs hget
    have hgen : ∀ cc, (checkLink nro cc w link).1 = !cc := by
      intro cc
      unfold checkLink getProbe linkClientDo clientDoFuel
      rw [hhead, hget]
      have hr : ¬ (isRedirectStatus r.status && r.location != "" && !true) = true := by
        simp
      simp only [hok, Bool.not_true, if_neg, hr, if_false]
      rcases hs with hs | hs <;> simp [hs]
    exact ⟨hgen true, hgen⟩

theorem checkLink_cancelled_not_inaccessible_witness :
    ((fun (_ : String) => true) "https://example.com/a" = true) ∧
    (checkLink (fun _ => true) true demoWebDown "https://example.com/a").1 = false := by
  refine ⟨rfl, ?_⟩
  exact ((checkLink_cancelled_not_inaccessible (fun _ => true) demoWebDown
    "https://example.com/a" rfl).1 rfl).1

/-- Claim C10: the prober's client never follows redirects: it always
returns the transport's first response having issued exactly one
request, so a HEAD status < 400 — 3xx redirects included — counts as
accessible and the redirect target is never contacted. -/
theorem checkLink_no_redirect_follow
    (nro : String → Bool) (cc : Bool) (w : Web) (link : String) (r : HResp)
    (hok : nro link = true) (hhead : w.fetch link .head = .resp r)
    (hlt : r.status < 400) :
    (∀ m u, linkClientDo w m u = (w.fetch u m, [(u, m)])) ∧
    checkLink nro cc w link = (false, [(link, .head)]) ∧
    (∀ u m, (u, m) ∈ (checkLink nro cc w link).2 → u = link) := by
  have hstop : ∀ m u, linkClientDo w m u = (w.fetch u m, [(u, m)]) := by
    intro m u
    unfold linkClientDo clientDoFuel
    match h : w.fetch u m with
    | .err => simp
    | .resp s => simp
  have hcl : checkLink nro cc w link = (false, [(link, .head)]) := by
    unfold checkLink
    rw [hstop, hhead]
    have h403 : ¬ (r.status == 403 || r.status == 405) = true := by
      simp only [Bool.or_eq_true, beq_iff_eq]
      omega
    simp [hok, h403, Nat.not_le.mpr hlt]
  refine ⟨hstop, hcl, ?_⟩
  intro u m hm
  rw [hcl] at hm
  simp only [List.mem_singleton, Prod.mk.injEq] at hm
  exact hm.1

theorem checkLink_no_redirect_follow_witness :
    ((fun (_ : String) => true) "https://example.com/a" = true) ∧
    (302 < 400) ∧
    checkLink (fun _ => true) false demoWebRedirect "https://example.com/a" =
      (false, [("https://example.com/a", .head)]) := by
  refine ⟨rfl, by decide, ?_⟩
  exact (checkLink_no_redirect_follow (fun _ => true) false demoWebRedirect
    "https://example.com/a" ⟨302, "https://evil.example.net/t"⟩ rfl rfl
    (by decide)).2.1

/-- Claim C3: every pipeline error surfacing while the ambient deadline
is exceeded is delivered as an AppError of kind Timeout wrapping the
original error as cause, whatever the original kind; and Timeout is one
of the five error kinds. -/
theorem serviceAnalyze_deadline_reclassifies_timeout :
    (∀ e : GoError,
      serviceAnalyze (some .deadlineExceeded) (.error e) =
        .error (.app .timeout 0 timeoutMessage (some e))) ∧
    (∀ e : GoError,
      ∃ e' : GoError,
        serviceAnalyze (some .deadlineExceeded) (.error e) = .error e' ∧
        e'.kindOf = some .timeout ∧ e'.causeOf = some e) ∧
    (∀ k : Kind,
      k ∈ [Kind.invalidInput, Kind.unreachable, Kind.timeout,
           Kind.parsingFailed, Kind.unknown]) := by
  refine ⟨fun e => rfl, fun e => ⟨.app .timeout 0 timeoutMessage (some e),
    rfl, rfl, rfl⟩, fun k => ?_⟩
  cases k <;> simp

theorem stepStart_htmlVersion (base : GoURL) (st : PState) (tag : String)
    (attrs : List (String × String)) :
    (stepStart base st tag attrs).htmlVersion = st.htmlVersion := by
  unfold stepStart
  dsimp only
  split_ifs <;> try rfl
  all_goals cases classifyLink (extractAttr attrs "href") base <;> rfl

theorem pstep_htmlVersion (base : GoURL) (st : PState) (t : HTok)
    (h : ∀ d, t ≠ .doctype d) :
    (pstep base st t).htmlVersion = st.htmlVersion := by
  cases t with
  | doctype d => exact absurd rfl (h d)
  | startTag tag attrs => exact stepStart_htmlVersion base st tag attrs
  | selfClosing tag attrs => exact stepStart_htmlVersion base st tag attrs
  | text s =>
    simp only [pstep]
    split <;> rfl
  | endTag tag =>
    simp only [pstep]
    split <;> rfl

theorem foldl_htmlVersion (base : GoURL) (ts : List HTok) :
    ∀ st : PState, (∀ d, HTok.doctype d ∉ ts) →
      (List.foldl (pstep base) st ts).htmlVersion = st.htmlVersion := by
  induction ts with
  | nil => intro st _; rfl
  | cons t rest ih =>
    intro st h
    rw [List.foldl_cons, ih _ (fun d hd => h d (List.mem_cons_of_mem t hd)),
      pstep_htmlVersion base st t (fun d hd => h d (hd ▸ List.mem_cons_self t rest))]

theorem stepStart_links (base : GoURL) (st : PState) (tag : String)
    (attrs : List (String × String)) :
    (stepStart base st tag attrs).links =
      st.links ++ (startTagLink base tag attrs).toList := by
  unfold stepStart startTagLink
  dsimp only
  split_ifs <;> try simp
  all_goals cases hcl : classifyLink (extractAttr attrs "href") base <;>
    simp [hcl]

theorem pstep_links (base : GoURL) (st : PState) (t : HTok) :
    (pstep base st t).links = st.links ++ (tokenLink base t).toList := by
  cases t with
  | doctype d => simp [pstep, tokenLink]
  | startTag tag attrs => exact stepStart_links base st tag attrs
  | selfClosing tag attrs => exact stepStart_links base st tag attrs
  | text s =>
    simp only [pstep, tokenLink]
    split <;> simp
  | endTag tag =>
    simp only [pstep, tokenLink]
    split <;> simp

theorem foldl_links (base : GoURL) (ts : List HTok) :
    ∀ st : PState, (List.foldl (pstep base) st ts).links =
      st.links ++ ts.filterMap (tokenLink base) := by
  induction ts with
  | nil => intro st; simp
  | cons t rest ih =>
    intro st
    rw [List.foldl_cons, ih, pstep_links]
    cases h : tokenLink base t <;> simp [h]

/-- Claim C6: the extractor's htmlVersion follows the doctype table: no
doctype by end of stream yields "Unknown"; a doctype yields
detectHTMLVersion of its data, which is "HTML5" without a "public"
marker and otherwise the first case-insensitive substring match in
priority order — "XHTML 1.1", "XHTML 1.0", "HTML 4.01", "Unknown". -/
theorem htmlVersion_doctype_table :
    (∀ base ts, (∀ d, HTok.doctype d ∉ ts) →
       (parseTokens base ts).htmlVersion = "Unknown") ∧
    (∀ base ts d, (parseTokens base (ts ++ [.doctype d])).htmlVersion =
       detectHTMLVersion d) ∧
    (∀ data, strContains (strToLower data) "public" = false →
       detectHTMLVersion data = "HTML5") ∧
    (∀ data, strContains (strToLower data) "public" = true →
       (strContains (strToLower data) "xhtml 1.1" = true ∨
        strContains (strToLower data) "xhtml basic 1.1" = true) →
       detectHTMLVersion data = "XHTML 1.1") ∧
    (∀ data, strContains (strToLower data) "public" = true →
       strContains (strToLower data) "xhtml 1.1" = false →
       strContains (strToLower data) "xhtml basic 1.1" = false →
       strContains (strToLower data) "xhtml 1.0" = true →
       detectHTMLVersion data = "XHTML 1.0") ∧
    (∀ data, strContains (strToLower data) "public" = true →
       strContains (strToLower data) "xhtml 1.1" = false →
       strContains (strToLower data) "xhtml basic 1.1" = false →
       strContains (strToLower data) "xhtml 1.0" = false →
       strContains (strToLower data) "html 4.01" = true →
       detectHTMLVersion data = "HTML 4.01") ∧
    (∀ data, strContains (strToLower data) "public" = true →
       strContains (strToLower data) "xhtml 1.1" = false →
       strContains (strToLower data) "xhtml basic 1.1" = false →
       strContains (strToLower data) "xhtml 1.0" = false →
       strContains (strToLower data) "html 4.01" = false →
       detectHTMLVersion data = "Unknown") := by
  refine ⟨?_, ?_, ?_, ?_, ?_, ?_, ?_⟩
  · intro base ts h
    exact foldl_htmlVersion base ts initPState h
  · intro base ts d
    unfold parseTokens
    rw [List.foldl_append]
    rfl
  · intro data h
    simp [detectHTMLVersion, h]
  · intro data h1 h2
    rcases h2 with h2 | h2 <;> simp [detectHTMLVersion, h1, h2]
  · intro data h1 h2 h3 h4
    simp [detectHTMLVersion, h1, h2, h3, h4]
  · intro data h1 h2 h3 h4 h5
    simp [detectHTMLVersion, h1, h2, h3, h4, h5]
  · intro data h1 h2 h3 h4 h5
    simp [detectHTMLVersion, h1, h2, h3, h4, h5]

theorem htmlVersion_doctype_table_witness :
    (parseTokens exBase [.startTag "html" []]).htmlVersion = "Unknown" ∧
    (parseTokens exBase ([] ++ [.doctype "html"])).htmlVersion =
      detectHTMLVersion "html" ∧
    detectHTMLVersion "html" = "HTML5" ∧
    detectHTMLVersion "html PUBLIC \"-//W3C//DTD XHTML 1.1//EN\"" = "XHTML 1.1" ∧
    detectHTMLVersion "html PUBLIC \"-//W3C//DTD XHTML 1.0 Strict//EN\"" = "XHTML 1.0" ∧
    detectHTMLVersion "HTML PUBLIC \"-//W3C//DTD HTML 4.01//EN\"" = "HTML 4.01" ∧
    detectHTMLVersion "HTML PUBLIC \"-//IETF//DTD HTML 2.0//EN\"" = "Unknown" := by
  refine ⟨?_, htmlVersion_doctype_table.2.1 exBase [] "html", ?_, ?_, ?_, ?_, ?_⟩
  · exact htmlVersion_doctype_table.1 exBase [.startTag "html" []]
      (by intro d; simp)
  · exact htmlVersion_doctype_table.2.2.1 "html" (by decide)
  · exact htmlVersion_doctype_table.2.2.2.1 _ (by decide) (Or.inl (by decide))
  · exact htmlVersion_doctype_table.2.2.2.2.1 _ (by decide) (by decide)
      (by decide) (by decide)
  · exact htmlVersion_doctype_table.2.2.2.2.2.1 _ (by decide) (by decide)
      (by decide) (by decide) (by decide)
  · exact htmlVersion_doctype_table.2.2.2.2.2.2 _ (by decide) (by decide)
      (by decide) (by decide) (by decide)

/-- Claim C7 counterexample: in a document with two title elements the
extractor keeps the second title's text, not the first's. -/
theorem parse_title_second_title_overwrites :
    (parseTokens exBase twoTitleToks).title = "Second" ∧
    ¬ (parseTokens exBase twoTitleToks).title = "First" := by
  constructor <;> decide

/-- Claim C7 as amended: each title element's next text token (trimmed)
overwrites the stored title, so after any prefix of the document a
complete later title element always wins: the last captured title is
kept, not the first. -/
theorem parse_title_last_title_wins (base : GoURL) (ts : List HTok)
    (t : String) :
    (parseTokens base
        (ts ++ [.startTag "title" [], .text t, .endTag "title"])).title =
      strTrim t := by
  unfold parseTokens
  rw [List.foldl_append]
  simp [pstep, stepStart, List.foldl_cons, List.foldl_nil]

theorem collectLinks_aux (links : List Link) :
    ∀ acc : List String × Nat × Nat,
      (List.foldl
        (fun acc l =>
          (acc.1 ++ [l.url],
           if l.isInternal then acc.2.1 + 1 else acc.2.1,
           if l.isInternal then acc.2.2 else acc.2.2 + 1))
        acc links).2.1 +
      (List.foldl
        (fun acc l =>
          (acc.1 ++ [l.url],
           if l.isInternal then acc.2.1 + 1 else acc.2.1,
           if l.isInternal then acc.2.2 else acc.2.2 + 1))
        acc links).2.2 = acc.2.1 + acc.2.2 + links.length := by
  induction links with
  | nil => intro acc; simp
  | cons l rest ih =>
    intro acc
    rw [List.foldl_cons, ih]
    cases h : l.isInternal <;> simp [h] <;> omega

/-- Claim C9: every anchor href is parsed and resolved against the base
URL; the link is discarded iff the resolved scheme is neither http nor
https, is classified internal iff the resolved host case-insensitively
equals the base host, and every occurrence is appended, so the
internal and external counters of the engine's collection loop sum to
the total number of link occurrences. -/
theorem classifyLink_filter_classify_count :
    (∀ links : List Link,
       (collectLinks links).2.1 + (collectLinks links).2.2 = links.length) ∧
    (∀ href base parsed, urlParse href = some parsed →
       (classifyLink href base = none ↔
         ((resolveReference base parsed).scheme ≠ "http" ∧
          (resolveReference base parsed).scheme ≠ "https")) ∧
       (∀ l, classifyLink href base = some l →
          l.isInternal = equalFold (resolveReference base parsed).host base.host ∧
          l.url = (resolveReference base parsed).toStr)) ∧
    (∀ base ts, (parseTokens base ts).links = ts.filterMap (tokenLink base)) := by
  refine ⟨?_, ?_, ?_⟩
  · intro links
    unfold collectLinks
    rw [collectLinks_aux]
    simp
  · intro href base parsed hp
    unfold classifyLink
    rw [hp]
    dsimp only
    by_cases hs : (resolveReference base parsed).scheme ≠ "http" ∧
        (resolveReference base parsed).scheme ≠ "https"
    · rw [if_pos hs]
      exact ⟨⟨fun _ => hs, fun _ => rfl⟩, by intro l h; cases h⟩
    · rw [if_neg hs]
      refine ⟨⟨fun h => Option.noConfusion h, fun h => absurd h hs⟩, ?_⟩
      intro l h
      injection h with h2
      rw [← h2]
      exact ⟨rfl, rfl⟩
  · intro base ts
    unfold parseTokens
    rw [foldl_links]
    rfl

theorem classifyLink_filter_classify_count_witness :
    (collectLinks [⟨"https://example.com/a", true⟩,
        ⟨"https://other.com/b", false⟩]).2.1 +
      (collectLinks [⟨"https://example.com/a", true⟩,
        ⟨"https://other.com/b", false⟩]).2.2 = 2 ∧
    urlParse "mailto:test@example.com" = some mailtoParsed ∧
    classifyLink "mailto:test@example.com" exBase = none ∧
    urlParse "/about" = some aboutParsed ∧
    classifyLink "/about" exBase = some ⟨"https://example.com/about", true⟩ ∧
    (true : Bool) = equalFold (resolveReference exBase aboutParsed).host exBase.host := by
  refine ⟨?_, by decide, ?_, by decide, ?_, ?_⟩
  · exact classifyLink_filter_classify_count.1 _
  · exact (classifyLink_filter_classify_count.2.1 "mailto:test@example.com"
      exBase mailtoParsed (by decide)).1.mpr (by decide)
  · decide
  · have h := ((classifyLink_filter_classify_count.2.1 "/about" exBase
      aboutParsed (by decide)).2 ⟨"https://example.com/about", true⟩ (by decide)).1
    exact h

/-- Claim C1 (code bug): on the document of the repository's own dedup
test, Engine.Analyze's collection loop hands the link checker all five
occurrences — duplicates included — although the test and the spec
require the deduplicated, order-preserving set of three URLs; the
internal/external counters (3 and 2) are computed over all occurrences
as the claim says. -/
theorem engine_sends_duplicates_to_checker :
    (collectLinks (parseTokens exBase dedupTestTokens).links).1 =
      ["https://example.com/a", "https://other.com/b",
       "https://example.com/a", "https://other.com/b",
       "https://example.com/c"] ∧
    (collectLinks (parseTokens exBase dedupTestTokens).links).2.1 = 3 ∧
    (collectLinks (parseTokens exBase dedupTestTokens).links).2.2 = 2 ∧
    dedupPreservingOrder
        (collectLinks (parseTokens exBase dedupTestTokens).links).1 =
      ["https://example.com/a", "https://other.com/b",
       "https://example.com/c"] ∧
    (collectLinks (parseTokens exBase dedupTestTokens).links).1 ≠
      dedupPreservingOrder
        (collectLinks (parseTokens exBase dedupTestTokens).links).1 := by
  refine ⟨by decide, by decide, by decide, by decide, by decide⟩

end PageInsight
